import Mathlib

/-!
Verification of the MnemoMind client-side orchestrator.

This file gives a shallow embedding in Lean 4 of the parts of the
TypeScript source that the checked properties are about:

* the citation-marker resolution of `components/MarkdownRenderer.tsx`;
* the intent classifier fallback of `services/geminiService.ts`;
* the retrieval coordinator `searchElastic`, the local search
  `searchPreloadedDocuments` and `updateFileContent` of the elastic
  service module;
* the routing logic of `handleSendMessage`, the RAG dispatcher
  `handleQueryDocuments`, the code pipeline's structured-response
  handling in `handleCodeGeneration`, the accept/reject operation
  `handleSuggestionAction` and the tail-replace helper
  `updateLastMessageInActiveChat` of `App.tsx`.

Asynchronous calls to external collaborators (the cloud search, the
generative model, the content fetch) are modelled by passing their
outcome as an explicit `Except`/`Option` argument, so every embedded
operation is a total, executable Lean function of its inputs.
Relevance scores (`number` in TypeScript) are modelled as rationals.
-/

namespace Mnemo

/-- `types.ts`: `MessageRole`. -/
inductive MessageRole where
  | user
  | model
  | system
deriving DecidableEq, Repr

/-- `types.ts`: `Intent`. -/
inductive Intent where
  | query_documents
  | generate_code
  | chit_chat
  | unknown
deriving DecidableEq, Repr

/-- `types.ts`: `ResponseType`. -/
inductive ResponseType where
  | rag
  | codeGeneration
  | chitChat
  | googleSearch
  | googleMaps
  | error
  | codeApplied
  | info
deriving DecidableEq, Repr

/-- `types.ts`: `GroundingOptions`. -/
structure GroundingOptions where
  useCloud : Bool
  usePreloaded : Bool
  useGoogleSearch : Bool
  useGoogleMaps : Bool
deriving DecidableEq, Repr

/-- `types.ts`: `Source`. -/
structure Source where
  id : String
  fileName : String
  path : String
deriving DecidableEq, Repr

/-- `types.ts`: `ElasticResult`; the TypeScript `score : number` is a rational here. -/
structure ElasticResult where
  source : Source
  contentSnippet : String
  score : ℚ
deriving DecidableEq, Repr

/-- `types.ts`: the `status` field of `CodeSuggestion`. -/
inductive SuggestionStatus where
  | pending
  | accepted
  | rejected
deriving DecidableEq, Repr

/-- `types.ts`: `CodeSuggestion`. -/
structure CodeSuggestion where
  file : Source
  thought : String
  originalContent : String
  suggestedContent : String
  status : SuggestionStatus
deriving DecidableEq, Repr

/-- `types.ts`: `Attachment` (the base64 payload is kept as a plain string). -/
structure Attachment where
  name : String
  mimeType : String
  content : String
deriving DecidableEq, Repr

/-- `types.ts`: `ChatMessage`.  Optional list fields are plain lists
(the app backfills them to `[]`), the other optional fields are `Option`. -/
structure ChatMessage where
  role : MessageRole
  content : String
  attachment : Option Attachment := none
  elasticSources : List ElasticResult := []
  suggestion : Option CodeSuggestion := none
  editedFile : Option Source := none
  responseType : Option ResponseType := none
deriving DecidableEq, Repr

/-- `types.ts`: `Chat` (the fields the verified operations read). -/
structure Chat where
  id : String
  title : String
  messages : List ChatMessage
  createdAt : Nat
  dataset : List ElasticResult
  groundingOptions : GroundingOptions
deriving DecidableEq, Repr

/-- `types.ts`: `EditedFileRecord`. -/
structure EditedFileRecord where
  file : Source
  originalContent : String
  currentContent : String
deriving DecidableEq, Repr

/-- `App.tsx` line 600: the fixed content used when retrieval finds nothing and
no external-search fallback is available. -/
def noRelevantInfoContent : String :=
  "I couldn't find any relevant information in the available documents to answer your question."

/- ### Citation rendering (`components/MarkdownRenderer.tsx`, lines 187-242) -/

/-- How a single `[n]` citation marker ends up in the rendered output:
either a clickable button wired to the 0-based source index, or plain text. -/
inductive CitationRendering where
  | link (sourceIndex : Nat)
  | literal (text : String)
deriving DecidableEq, Repr

/-- The literal text `[n]` of a citation marker. -/
def markerText (n : Nat) : String :=
  "[" ++ toString n ++ "]"

/-- `MarkdownRenderer.tsx`: the per-marker branch of the citation pass.
The whole pass runs only under `onCitationClick && elasticSources &&
elasticSources.length > 0` (line 188); inside it, a marker `[n]` becomes a
clickable button for 0-based index `n - 1` exactly when `citationNum > 0 &&
index < elasticSources.length` (line 219), and is re-emitted as a plain text
node otherwise (line 238). -/
def renderCitationMarker (hasHandler : Bool) (numSources : Nat) (n : Nat) :
    CitationRendering :=
  if hasHandler ∧ 0 < numSources then
    if 0 < n ∧ n - 1 < numSources then
      .link (n - 1)
    else
      .literal (markerText n)
  else
    .literal (markerText n)

/-- A message's text, split at the `[n]` markers found by the regex
`/\[(\d+)\]/g`: runs of ordinary text alternate with numeric markers. -/
inductive TextPiece where
  | plain (s : String)
  | marker (n : Nat)
deriving DecidableEq, Repr

/-- Rendering of one piece: ordinary text passes through, markers go through
`renderCitationMarker`. -/
def renderPiece (hasHandler : Bool) (numSources : Nat) : TextPiece → CitationRendering
  | .plain s => .literal s
  | .marker n => renderCitationMarker hasHandler numSources n

/-- Rendering of a whole message text around its citation markers. -/
def renderPieces (hasHandler : Bool) (numSources : Nat) (pieces : List TextPiece) :
    List CitationRendering :=
  pieces.map (renderPiece hasHandler numSources)

/-- C1: in a rendered model message with `L` citation sources, a marker `[n]`
resolves to the 0-based source `n - 1` exactly when `1 ≤ n ≤ L`; for `n = 0`
or `n > L` it is rendered as the literal text `[n]`, never as a link. -/
theorem citation_marker_resolution (L n : Nat) :
    (renderCitationMarker true L n = .link (n - 1) ↔ 1 ≤ n ∧ n ≤ L) ∧
    (n = 0 ∨ L < n → renderCitationMarker true L n = .literal (markerText n)) ∧
    (∀ (pieces : List TextPiece) (k : Nat), pieces[k]? = some (.marker n) →
      (renderPieces true L pieces)[k]? = some (renderCitationMarker true L n)) := by
  refine ⟨?_, ?_, ?_⟩
  · constructor
    · intro h
      by_cases hL : 0 < L
      · by_cases hn : 0 < n ∧ n - 1 < L
        · omega
        · simp [renderCitationMarker, hL, hn] at h
      · simp [renderCitationMarker, hL] at h
    · rintro ⟨h1, h2⟩
      have hL : 0 < L := lt_of_lt_of_le h1 h2
      have hn : 0 < n ∧ n - 1 < L := ⟨h1, by omega⟩
      simp [renderCitationMarker, hL, hn]
  · intro h
    by_cases hL : 0 < L
    · have hn : ¬(0 < n ∧ n - 1 < L) := by omega
      simp [renderCitationMarker, hL, hn]
    · simp [renderCitationMarker, hL]
  · intro pieces k hk
    simp [renderPieces, hk, renderPiece]

/-- Concrete instance of `citation_marker_resolution`: with two sources,
`[1]` links to source 0, `[2]` links to source 1, and `[3]` and `[0]`
render as plain text; in the text `X [1] and Y [3]` the `[1]` renders as a
link at its position. -/
theorem citation_marker_resolution_witness :
    renderCitationMarker true 2 1 = .link 0 ∧
    renderCitationMarker true 2 2 = .link 1 ∧
    renderCitationMarker true 2 3 = .literal (markerText 3) ∧
    renderCitationMarker true 2 0 = .literal (markerText 0) ∧
    (renderPieces true 2 [.plain "X ", .marker 1, .plain " and Y ", .marker 3])[1]? =
      some (renderCitationMarker true 2 1) := by
  refine ⟨?_, ?_, ?_, ?_, ?_⟩
  · exact (citation_marker_resolution 2 1).1.mpr (by decide)
  · exact (citation_marker_resolution 2 2).1.mpr (by decide)
  · exact (citation_marker_resolution 2 3).2.1 (by decide)
  · exact (citation_marker_resolution 2 0).2.1 (by decide)
  · exact (citation_marker_resolution 2 1).2.2
      [.plain "X ", .marker 1, .plain " and Y ", .marker 3] 1 (by decide)

/- ### Local search and content update (elastic service module) -/

/-- Does `pat` occur at the start of `s`?  (Character-list version of a
string prefix test, used to model JavaScript regex matching of a literal
pattern.) -/
def listStartsWith : List Char → List Char → Bool
  | [], _ => true
  | _ :: _, [] => false
  | p :: ps, c :: cs => p = c && listStartsWith ps cs

/-- Does `pat` occur anywhere in `s`?  Models `String.prototype.includes`. -/
def listContains (pat : List Char) : List Char → Bool
  | [] => pat.isEmpty
  | c :: cs => listStartsWith pat (c :: cs) || listContains pat cs

/-- Number of non-overlapping, left-to-right occurrences of the literal
pattern `pat` in `s`: models `s.match(new RegExp(escapedQuery, 'g'))` for a
non-empty pattern (the service guards against an empty query). -/
def countOccs (pat : List Char) : List Char → Nat
  | [] => 0
  | c :: cs =>
    if pat ≠ [] ∧ listStartsWith pat (c :: cs) then
      1 + countOccs pat (List.drop (pat.length - 1) cs)
    else
      countOccs pat cs
termination_by s => s.length
decreasing_by
  · simp only [List.length_cons, List.length_drop]
    omega
  · simp only [List.length_cons]
    omega

/-- Stable insertion of one result into a list sorted by descending score:
the new element goes after existing elements of equal score, reproducing a
stable `sort((a, b) => b.score - a.score)`. -/
def insertByScoreDesc (x : ElasticResult) : List ElasticResult → List ElasticResult
  | [] => [x]
  | y :: ys => if y.score < x.score then x :: y :: ys else y :: insertByScoreDesc x ys

/-- Stable sort by descending `score`. -/
def sortByScoreDesc : List ElasticResult → List ElasticResult
  | [] => []
  | x :: xs => insertByScoreDesc x (sortByScoreDesc xs)

/-- Elastic service module, `searchPreloadedDocuments`: synchronous keyword
scoring over the client-side dataset.  Each document scores the number of
case-insensitive occurrences of the query in its snippet, plus 5 if the file
name contains the query and 2 if the path does (both boosts only reached when
the snippet is non-empty); documents with score 0 are dropped and the rest
are sorted by descending score. -/
def searchPreloadedDocuments (query : String) (dataset : List ElasticResult) :
    List ElasticResult :=
  if query = "" then []
  else
    let lq := query.toLower.toList
    let scored := dataset.map (fun doc =>
      let score : ℚ :=
        if doc.contentSnippet = "" then 0
        else
          let base : Nat := countOccs lq doc.contentSnippet.toLower.toList
          let b1 : Nat := if listContains lq doc.source.fileName.toLower.toList then 5 else 0
          let b2 : Nat := if listContains lq doc.source.path.toLower.toList then 2 else 0
          ((base + b1 + b2 : Nat) : ℚ)
      { doc with score := score })
    sortByScoreDesc (scored.filter (fun d => 0 < d.score))

/-- Result of `updateFileContent`. -/
structure UpdateResult where
  success : Bool
  newDataset : List ElasticResult
deriving DecidableEq, Repr

/-- Elastic service module, `updateFileContent`: replaces the stored snippet
of every dataset entry whose source id matches; `success` is whether a match
was found, and is `false` outright when the source id is the empty string
(the JavaScript `!source.id` truthiness guard). -/
def updateFileContent (source : Source) (newContent : String)
    (dataset : List ElasticResult) : UpdateResult :=
  if source.id = "" then ⟨false, dataset⟩
  else
    ⟨dataset.any (fun d => d.source.id = source.id),
     dataset.map (fun d =>
       if d.source.id = source.id then { d with contentSnippet := newContent } else d)⟩

/- ### Rank fusion and the retrieval coordinator -/

/-- An entry of the fusion accumulator: the representative result for one
file id together with its summed reciprocal-rank score. -/
structure FusedEntry where
  result : ElasticResult
  rrfScore : ℚ
deriving DecidableEq, Repr

/-- Modelled from the spec: one contribution step of reciprocal rank fusion
(`utils/rrf.ts` is not part of the provided sources).  A result sharing a
`FileRef.id` with an existing entry adds its contribution to that entry's
summed score and keeps the occurrence of higher individual relevance;
otherwise it is appended, so first-seen order is preserved. -/
def rrfInsert (r : ElasticResult) (contrib : ℚ) : List FusedEntry → List FusedEntry
  | [] => [⟨r, contrib⟩]
  | e :: rest =>
    if e.result.source.id = r.source.id then
      { result := if e.result.score < r.score then r else e.result,
        rrfScore := e.rrfScore + contrib } :: rest
    else
      e :: rrfInsert r contrib rest

/-- Modelled from the spec: fold one ranked source list into the accumulator;
the result at 1-based rank `rank` contributes `1 / (60 + rank)`. -/
def rrfAddList (acc : List FusedEntry) (l : List ElasticResult) : List FusedEntry :=
  l.enum.foldl (fun a p => rrfInsert p.2 (1 / (60 + (p.1 + 1 : ℚ))) a) acc

/-- Stable insertion into a list sorted by descending summed score (ties keep
first-seen order). -/
def rrfInsertSorted (e : FusedEntry) : List FusedEntry → List FusedEntry
  | [] => [e]
  | x :: xs => if x.rrfScore < e.rrfScore then e :: x :: xs else x :: rrfInsertSorted e xs

/-- Stable sort of the accumulator by descending summed score. -/
def rrfSort : List FusedEntry → List FusedEntry
  | [] => []
  | x :: xs => rrfInsertSorted x (rrfSort xs)

/-- Modelled from the spec: reciprocal rank fusion of the per-source ranked
lists (`utils/rrf.ts` is not part of the provided sources; this follows
section 4.1 of the specification with the conventional damping constant
`k = 60`). -/
def reciprocalRankFusion (lists : List (List ElasticResult)) : List ElasticResult :=
  (rrfSort (lists.foldl rrfAddList [])).map (·.result)

/-- Folding in an empty source list leaves the accumulator unchanged. -/
theorem rrfAddList_nil (acc : List FusedEntry) : rrfAddList acc [] = acc := rfl

/-- An empty source list contributes nothing to the fusion. -/
theorem reciprocalRankFusion_nil_cons (rest : List (List ElasticResult)) :
    reciprocalRankFusion ([] :: rest) = reciprocalRankFusion rest := rfl

/-- The outcome of the cloud search call: the result list, or a network /
response error. -/
abbrev CloudOutcome := Except String (List ElasticResult)

/-- `App.tsx` lines 348-379, `searchElastic`: the retrieval coordinator.
Each enabled source contributes one result list; the cloud search's failure
is caught (`.catch(err => ... return [])`) and contributes an empty list, the
preloaded search is synchronous and infallible.  With no enabled source the
coordinator returns `[]` without searching.  Otherwise the lists are fused
and truncated to the top 10.  (The surrounding `try/catch` that maps a fusion
failure to `[]` has no counterpart here because the embedded fusion is a
total function.) -/
def searchElastic (opts : GroundingOptions) (dataset : List ElasticResult)
    (query : String) (cloudOutcome : CloudOutcome) : List ElasticResult :=
  let cloudLists : List (List ElasticResult) :=
    if opts.useCloud then
      [match cloudOutcome with
       | .ok l => l
       | .error _ => []]
    else []
  let preloadedLists : List (List ElasticResult) :=
    if opts.usePreloaded ∧ 0 < dataset.length then
      [searchPreloadedDocuments query dataset]
    else []
  let searchPromises := cloudLists ++ preloadedLists
  if searchPromises.isEmpty then []
  else (reciprocalRankFusion searchPromises).take 10

/-- C5: retrieval tolerates per-source failure.  A cloud failure is
indistinguishable from a successful empty cloud result (so it neither aborts
the other sources nor escapes the coordinator); when every enabled source
fails — the preloaded source is infallible, so this means the cloud source
alone fails — the coordinator returns `[]`; with zero enabled sources it
returns `[]` whatever the cloud outcome; and with both sources enabled a
cloud failure leaves exactly the preloaded source's contribution. -/
theorem searchElastic_failure_tolerant (opts : GroundingOptions)
    (dataset : List ElasticResult) (query e : String) :
    searchElastic opts dataset query (.error e) =
      searchElastic opts dataset query (.ok []) ∧
    (opts.usePreloaded = false →
      searchElastic opts dataset query (.error e) = []) ∧
    (opts.useCloud = false → opts.usePreloaded = false →
      ∀ r : CloudOutcome, searchElastic opts dataset query r = []) ∧
    (opts.useCloud = true → opts.usePreloaded = true →
      searchElastic opts dataset query (.error e) =
        searchElastic { opts with useCloud := false } dataset query (.error e)) := by
  refine ⟨rfl, ?_, ?_, ?_⟩
  · intro hp
    by_cases hc : opts.useCloud <;>
      simp [searchElastic, hp, hc, reciprocalRankFusion, rrfAddList, rrfSort]
  · intro hc hp r
    simp [searchElastic, hp, hc]
  · intro hc hp
    by_cases hd : 0 < dataset.length
    · simp [searchElastic, hc, hp, hd, reciprocalRankFusion_nil_cons]
    · simp [searchElastic, hc, hp, hd, reciprocalRankFusion, rrfAddList, rrfSort]

/-- Concrete instance of `searchElastic_failure_tolerant`: with the cloud
source enabled and failing and a one-document preloaded dataset, the
coordinator neither throws nor loses the preloaded contribution. -/
theorem searchElastic_failure_tolerant_witness :
    searchElastic ⟨true, true, false, false⟩
        [⟨⟨"loc-1", "notes.md", "docs"⟩, "hello world", 1⟩] "hello" (.error "network") =
      searchElastic ⟨false, true, false, false⟩
        [⟨⟨"loc-1", "notes.md", "docs"⟩, "hello world", 1⟩] "hello" (.error "network") ∧
    searchElastic ⟨true, false, false, false⟩ [] "hello" (.error "network") = [] := by
  constructor
  · exact (searchElastic_failure_tolerant ⟨true, true, false, false⟩
      [⟨⟨"loc-1", "notes.md", "docs"⟩, "hello world", 1⟩] "hello" "network").2.2.2 rfl rfl
  · exact (searchElastic_failure_tolerant ⟨true, false, false, false⟩
      [] "hello" "network").2.1 rfl

/-- Executable model of `String.prototype.trim`: drop whitespace from both
ends. -/
def trimChars (s : String) : String :=
  ⟨((s.data.dropWhile Char.isWhitespace).reverse.dropWhile Char.isWhitespace).reverse⟩

/- ### Intent classification (`services/geminiService.ts`, lines 66-117) -/

/-- The string labels of `Intent`, as checked by
`Object.values(Intent).includes(intent)`. -/
def intentOfString (s : String) : Option Intent :=
  if s = "query_documents" then some .query_documents
  else if s = "generate_code" then some .generate_code
  else if s = "chit_chat" then some .chit_chat
  else if s = "unknown" then some .unknown
  else none

/-- `geminiService.ts`, `classifyIntent`: the generator call's outcome is
passed in explicitly.  A successful response is trimmed and matched against
the intent labels (an unrecognised label gives `unknown`); any thrown error
is caught and falls back to `query_documents`. -/
def classifyIntent (apiOutcome : Except String String) : Intent :=
  match apiOutcome with
  | .error _ => .query_documents
  | .ok txt =>
    match intentOfString (trimChars txt) with
    | some i => i
    | none => .unknown

/- ### Send-message routing (`App.tsx`, lines 827-916) -/

/-- The three downstream pipelines `handleSendMessage` can dispatch to. -/
inductive Pipeline where
  | chitChat
  | queryDocuments
  | codeGeneration
deriving DecidableEq, Repr

/-- What one invocation of `handleSendMessage` did: nothing (the guard at its
top returned early), or a dispatch to a pipeline, recording whether
`classifyIntent` was invoked on the way. -/
inductive SendOutcome where
  | aborted
  | dispatched (p : Pipeline) (classifierCalled : Bool)
deriving DecidableEq, Repr

/-- The user message appended before routing. -/
def mkUserMessage (query : String) (att : Option Attachment) : ChatMessage :=
  { role := .user, content := query, attachment := att }

/-- `App.tsx` lines 842-844: the title given to a chat by its first message. -/
def truncatedTitle (query : String) : String :=
  query.take 40 ++ (if 40 < query.length then "..." else "")

/-- `App.tsx` line 861: is any grounding source active? -/
def isGrounded (o : GroundingOptions) : Bool :=
  o.useCloud || o.usePreloaded || o.useGoogleSearch || o.useGoogleMaps

/-- `App.tsx` lines 866-881: the intent used for routing.  The classifier
call's own failure is caught and the default `query_documents` is kept. -/
def appLevelIntent (classifierOutcome : Except String Intent) : Intent :=
  match classifierOutcome with
  | .ok i => i
  | .error _ => .query_documents

/-- `App.tsx` lines 827-916, `handleSendMessage`: guard, user-message append,
title update, and intent routing.  The generator's classification outcome is
passed in explicitly; the returned `Chat` is the active chat after the
user-message append (`none` when there is no active chat), and the
`SendOutcome` records the dispatched pipeline. -/
def handleSendMessage (activeChat : Option Chat) (isLoading codeGenEnabled : Bool)
    (query : String) (att : Option Attachment)
    (classifierOutcome : Except String Intent) : Option Chat × SendOutcome :=
  match activeChat with
  | none => (none, .aborted)
  | some chat =>
    if (trimChars query = "" ∧ att = none) ∨ isLoading then (some chat, .aborted)
    else
      let userMessage := mkUserMessage query att
      let newTitle :=
        if chat.messages.length = 0 ∧ trimChars query ≠ "" then truncatedTitle query
        else chat.title
      let chat' := { chat with messages := chat.messages ++ [userMessage], title := newTitle }
      let o := chat.groundingOptions
      if isGrounded o || att.isSome then
        let classifierCalled : Bool := if trimChars query = "" then false else true
        let intent :=
          if trimChars query = "" then Intent.query_documents
          else appLevelIntent classifierOutcome
        if intent = .generate_code ∧ codeGenEnabled then
          (some chat', .dispatched .codeGeneration classifierCalled)
        else if intent = .chit_chat ∧ att = none then
          if o.useGoogleSearch ∧ ¬o.useCloud ∧ ¬o.usePreloaded ∧ ¬o.useGoogleMaps then
            (some chat', .dispatched .queryDocuments classifierCalled)
          else
            (some chat', .dispatched .chitChat classifierCalled)
        else
          (some chat', .dispatched .queryDocuments classifierCalled)
      else
        (some chat', .dispatched .chitChat false)

/-- C2: with all four grounding flags off and no attachment, a successful
send always dispatches the chit-chat pipeline and the intent classifier is
never called, whatever the classifier would have answered. -/
theorem allFlagsOff_routes_chitChat (chat : Chat) (q : String) (cge : Bool)
    (cr : Except String Intent)
    (hopts : chat.groundingOptions = ⟨false, false, false, false⟩)
    (hq : trimChars q ≠ "") :
    (handleSendMessage (some chat) false cge q none cr).2 =
      .dispatched .chitChat false := by
  simp [handleSendMessage, hopts, hq, isGrounded]

/-- Concrete instance of `allFlagsOff_routes_chitChat`: history `[hi]` with an
all-false grounding config routes to chit-chat without classification, even
if the classifier would have said `generate_code`. -/
theorem allFlagsOff_routes_chitChat_witness :
    (handleSendMessage
        (some ⟨"c1", "New Chat", [], 0, [], ⟨false, false, false, false⟩⟩)
        false true "hi" none (.ok .generate_code)).2 =
      .dispatched .chitChat false :=
  allFlagsOff_routes_chitChat
    ⟨"c1", "New Chat", [], 0, [], ⟨false, false, false, false⟩⟩
    "hi" true (.ok .generate_code) rfl (by decide)

/-- C9: a send with an empty or whitespace-only query and no attachment, or
one issued while a previous turn is still loading, is a no-op: the active
chat is returned unchanged and nothing is dispatched. -/
theorem blank_or_loading_send_is_noop (ac : Option Chat)
    (isLoading cge : Bool) (q : String) (att : Option Attachment)
    (cr : Except String Intent)
    (h : (trimChars q = "" ∧ att = none) ∨ isLoading = true) :
    handleSendMessage ac isLoading cge q att cr = (ac, .aborted) := by
  match ac with
  | none => rfl
  | some chat =>
    have : (trimChars q = "" ∧ att = none) ∨ isLoading := by
      rcases h with h | h
      · exact Or.inl h
      · exact Or.inr (by simp [h])
    simp [handleSendMessage, this]

/-- Concrete instance of `blank_or_loading_send_is_noop`: a whitespace-only
query with no attachment leaves the session untouched. -/
theorem blank_or_loading_send_is_noop_witness :
    handleSendMessage
        (some ⟨"c1", "T", [], 0, [], ⟨true, false, false, false⟩⟩)
        false true "   " none (.ok .chit_chat) =
      (some ⟨"c1", "T", [], 0, [], ⟨true, false, false, false⟩⟩, .aborted) :=
  blank_or_loading_send_is_noop
    (some ⟨"c1", "T", [], 0, [], ⟨true, false, false, false⟩⟩)
    false true "   " none (.ok .chit_chat) (Or.inl ⟨by decide, rfl⟩)

/-- C8: when the classifier's generator call fails, `classifyIntent` returns
`query_documents` — never `unknown` — and routing that outcome (whether the
failure was caught inside the service or around the call site) dispatches the
document-query pipeline. -/
theorem classifier_failure_defaults_to_queryDocuments (e : String) (chat : Chat)
    (cge : Bool) (q : String)
    (hg : isGrounded chat.groundingOptions = true) (hq : trimChars q ≠ "") :
    classifyIntent (.error e) = .query_documents ∧
    classifyIntent (.error e) ≠ .unknown ∧
    (handleSendMessage (some chat) false cge q none
        (.ok (classifyIntent (.error e)))).2 = .dispatched .queryDocuments true ∧
    (handleSendMessage (some chat) false cge q none (.error e)).2 =
      .dispatched .queryDocuments true ∧
    (∀ cr : Except String Intent, ∃ p called,
      (handleSendMessage (some chat) false cge q none cr).2 =
        .dispatched p called) := by
  refine ⟨rfl, by simp [classifyIntent], ?_, ?_, ?_⟩
  · simp [handleSendMessage, classifyIntent, appLevelIntent, hq, hg]
  · simp [handleSendMessage, classifyIntent, appLevelIntent, hq, hg]
  · intro cr
    cases hI : appLevelIntent cr with
    | query_documents =>
      exact ⟨.queryDocuments, true, by simp [handleSendMessage, hq, hg, hI]⟩
    | generate_code =>
      by_cases hcge : cge = true
      · exact ⟨.codeGeneration, true,
          by simp [handleSendMessage, hq, hg, hI, hcge]⟩
      · exact ⟨.queryDocuments, true,
          by simp [handleSendMessage, hq, hg, hI, hcge]⟩
    | chit_chat =>
      by_cases hw : chat.groundingOptions.useGoogleSearch = true ∧
          chat.groundingOptions.useCloud = false ∧
          chat.groundingOptions.usePreloaded = false ∧
          chat.groundingOptions.useGoogleMaps = false
      · exact ⟨.queryDocuments, true,
          by simp [handleSendMessage, hq, hg, hI, hw]⟩
      · exact ⟨.chitChat, true,
          by simp [handleSendMessage, hq, hg, hI, hw]⟩
    | unknown =>
      exact ⟨.queryDocuments, true, by simp [handleSendMessage, hq, hg, hI]⟩

/-- Concrete instance of `classifier_failure_defaults_to_queryDocuments`:
a grounded chat with a failing classifier still reaches the document-query
pipeline. -/
theorem classifier_failure_defaults_to_queryDocuments_witness :
    classifyIntent (.error "boom") = .query_documents ∧
    classifyIntent (.error "boom") ≠ .unknown ∧
    (handleSendMessage
        (some ⟨"c1", "T", [], 0, [], ⟨true, false, false, false⟩⟩)
        false false "what is this?" none
        (.ok (classifyIntent (.error "boom")))).2 =
      .dispatched .queryDocuments true ∧
    (handleSendMessage
        (some ⟨"c1", "T", [], 0, [], ⟨true, false, false, false⟩⟩)
        false false "what is this?" none (.error "boom")).2 =
      .dispatched .queryDocuments true :=
  have h := classifier_failure_defaults_to_queryDocuments "boom"
    ⟨"c1", "T", [], 0, [], ⟨true, false, false, false⟩⟩
    false "what is this?" rfl (by decide)
  ⟨h.1, h.2.1, h.2.2.1, h.2.2.2.1⟩

/- ### RAG dispatch (`App.tsx`, lines 456-645, `handleQueryDocuments`) -/

/-- Which generation path `handleQueryDocuments` takes after retrieval:
the external-search fallback stream, the context-grounded stream, or —
when there is no context and no fallback — no generator call at all. -/
inductive QueryDocsOutcome where
  | groundingFallback
  | ragGeneration (ctx : List ElasticResult)
  | noInfo
deriving DecidableEq, Repr

/-- Whether the outcome involves a call to the streaming generator. -/
def queryDocsGeneratorCalled : QueryDocsOutcome → Bool
  | .noInfo => false
  | _ => true

/-- `App.tsx` lines 498-607: the branch structure of `handleQueryDocuments`
after the placeholder append.  `searchResults` is what `searchElastic` would
return; the search only runs when a document source is enabled, otherwise
the context stays empty. -/
def queryDocsRoute (o : GroundingOptions) (searchResults : List ElasticResult) :
    QueryDocsOutcome :=
  let elasticResults := if o.useCloud || o.usePreloaded then searchResults else []
  if elasticResults.isEmpty ∧ (o.useGoogleSearch || o.useGoogleMaps) then
    .groundingFallback
  else if elasticResults.isEmpty then .noInfo
  else .ragGeneration elasticResults

/-- `App.tsx` lines 598-602: the tail-message finalisation of the no-results,
no-fallback case. -/
def queryDocsNoInfoTail (m : ChatMessage) : ChatMessage :=
  { m with content := noRelevantInfoContent, responseType := some .error }

/-- C7: a grounded query whose retrieval returns zero results, with neither
web nor maps search enabled, never calls the generator: the route is the
terminal no-information case and the tail message is finalised with the fixed
content and the error response kind. -/
theorem empty_retrieval_no_fallback_skips_generator (o : GroundingOptions)
    (m : ChatMessage)
    (hs : o.useGoogleSearch = false) (hm : o.useGoogleMaps = false) :
    queryDocsRoute o [] = .noInfo ∧
    queryDocsGeneratorCalled (queryDocsRoute o []) = false ∧
    (queryDocsNoInfoTail m).content = noRelevantInfoContent ∧
    (queryDocsNoInfoTail m).responseType = some .error := by
  have hroute : queryDocsRoute o [] = .noInfo := by
    by_cases hc : o.useCloud || o.usePreloaded <;> simp [queryDocsRoute, hc, hs, hm]
  exact ⟨hroute, by rw [hroute]; rfl, rfl, rfl⟩

/-- Concrete instance of `empty_retrieval_no_fallback_skips_generator`:
cloud-only grounding, empty retrieval. -/
theorem empty_retrieval_no_fallback_skips_generator_witness :
    queryDocsRoute ⟨true, false, false, false⟩ [] = .noInfo ∧
    queryDocsGeneratorCalled (queryDocsRoute ⟨true, false, false, false⟩ []) = false ∧
    (queryDocsNoInfoTail { role := .model, content := "" }).content =
      noRelevantInfoContent ∧
    (queryDocsNoInfoTail { role := .model, content := "" }).responseType =
      some .error :=
  empty_retrieval_no_fallback_skips_generator ⟨true, false, false, false⟩
    { role := .model, content := "" } rfl rfl

/- ### Code pipeline structured-response handling (`App.tsx`, lines 756-811) -/

/-- JavaScript truthiness of an optional string field: absent and empty
strings are falsy. -/
def truthyField : Option String → Bool
  | none => false
  | some s => if s = "" then false else true

/-- The parsed structured value returned by the code-generation stream:
the fields of interest, each possibly absent. -/
structure CodeGenResponse where
  error : Option String := none
  filePath : Option String := none
  thought : Option String := none
  newContent : Option String := none
deriving DecidableEq, Repr

/-- `App.tsx` line 768: the full path a known file is matched under. -/
def fullPathOf (f : Source) : String :=
  if f.path = "" then f.fileName else f.path ++ "/" ++ f.fileName

/-- `App.tsx` line 790: the message for a structured response missing a
required success field. -/
def malformedCodeGenMessage : String :=
  "The AI response for the code edit was incomplete or malformed. Missing required fields."

/-- How the code pipeline's tail message is finalised: with an attached
pending suggestion, or with an error text. -/
inductive CodeGenFinal where
  | suggested (s : CodeSuggestion)
  | failed (msg : String)
deriving DecidableEq, Repr

/-- `App.tsx` lines 759-796: handling of the successfully parsed structured
response.  A truthy `error` field is surfaced; a response with truthy
`filePath`, `newContent` and `thought` is resolved against the known file
index and its original content fetched (the fetch's outcome is passed in as
`fetchContent`; the service signals failure with `none` or an
`Error:`-prefixed string); anything else is malformed.  No suggestion is
produced on any failure path. -/
def processCodeGenResponse (resp : CodeGenResponse) (allFiles : List Source)
    (fetchContent : Source → Option String) : CodeGenFinal :=
  if truthyField resp.error then .failed (resp.error.getD "")
  else if truthyField resp.filePath ∧ truthyField resp.newContent ∧
      truthyField resp.thought then
    let fullPath := resp.filePath.getD ""
    match allFiles.find? (fun f => fullPathOf f = fullPath) with
    | none =>
      .failed ("The model suggested editing a file path I couldn't match: `" ++
        fullPath ++ "`. Please check the path relative to your data source.")
    | some file =>
      match fetchContent file with
      | none =>
        .failed ("Could not fetch the original content for `" ++ file.fileName ++
          "` to create the suggestion. ")
      | some content =>
        if content.startsWith "Error:" then
          .failed ("Could not fetch the original content for `" ++ file.fileName ++
            "` to create the suggestion. " ++ content)
        else
          .suggested
            { file := file
              thought := resp.thought.getD ""
              originalContent := content
              suggestedContent := resp.newContent.getD ""
              status := .pending }
  else .failed malformedCodeGenMessage

/-- `App.tsx` lines 799-811: the final tail-message update of the code
pipeline. -/
def finalizeCodeGen : CodeGenFinal → ChatMessage → ChatMessage
  | .suggested s, m =>
    { m with
      content := "I have a suggestion for `file:" ++ s.file.fileName ++ "`:"
      suggestion := some s }
  | .failed e, m =>
    { m with
      content := if e = "" then "Sorry, I couldn't generate the code edit." else e
      responseType := some .error }

/-- C6: a parsed structured response without a truthy `newContent` field —
even with well-formed `filePath` and `thought` — is treated as malformed:
the outcome is the generic parse-failure message, and the finalised tail
message carries the error response kind and no suggestion, for every file
index and every content-fetch behaviour. -/
theorem missing_newContent_is_malformed (resp : CodeGenResponse)
    (allFiles : List Source) (fetch : Source → Option String) (m : ChatMessage)
    (herr : truthyField resp.error = false)
    (hnc : truthyField resp.newContent = false)
    (hm : m.suggestion = none) :
    processCodeGenResponse resp allFiles fetch = .failed malformedCodeGenMessage ∧
    (finalizeCodeGen (processCodeGenResponse resp allFiles fetch) m).suggestion =
      none ∧
    (finalizeCodeGen (processCodeGenResponse resp allFiles fetch) m).responseType =
      some .error ∧
    (finalizeCodeGen (processCodeGenResponse resp allFiles fetch) m).content =
      malformedCodeGenMessage := by
  have hproc : processCodeGenResponse resp allFiles fetch =
      .failed malformedCodeGenMessage := by
    simp [processCodeGenResponse, herr, hnc]
  refine ⟨hproc, ?_, ?_, ?_⟩ <;>
    simp [hproc, finalizeCodeGen, malformedCodeGenMessage, hm]

/-- Concrete instance of `missing_newContent_is_malformed`: a response with
well-formed `filePath` and `thought` but no `newContent` never attaches a
suggestion. -/
theorem missing_newContent_is_malformed_witness :
    processCodeGenResponse
        { filePath := some "src/a.ts", thought := some "add a helper" }
        [⟨"cloud-1", "a.ts", "src"⟩] (fun _ => some "old content")
        = .failed malformedCodeGenMessage ∧
    (finalizeCodeGen
        (processCodeGenResponse
          { filePath := some "src/a.ts", thought := some "add a helper" }
          [⟨"cloud-1", "a.ts", "src"⟩] (fun _ => some "old content"))
        { role := .model, content := "Analyzing" }).suggestion = none ∧
    (finalizeCodeGen
        (processCodeGenResponse
          { filePath := some "src/a.ts", thought := some "add a helper" }
          [⟨"cloud-1", "a.ts", "src"⟩] (fun _ => some "old content"))
        { role := .model, content := "Analyzing" }).responseType = some .error ∧
    (finalizeCodeGen
        (processCodeGenResponse
          { filePath := some "src/a.ts", thought := some "add a helper" }
          [⟨"cloud-1", "a.ts", "src"⟩] (fun _ => some "old content"))
        { role := .model, content := "Analyzing" }).content =
      malformedCodeGenMessage :=
  missing_newContent_is_malformed
    { filePath := some "src/a.ts", thought := some "add a helper" }
    [⟨"cloud-1", "a.ts", "src"⟩] (fun _ => some "old content")
    { role := .model, content := "Analyzing" } rfl rfl rfl

/- ### Positional list update (`array.map((x, index) => ...)` pattern) -/

/-- `listMapIdxFrom f n l` maps `f` over `l` with indices starting at `n`. -/
def listMapIdxFrom {α : Type} (f : Nat → α → α) : Nat → List α → List α
  | _, [] => []
  | n, x :: xs => f n x :: listMapIdxFrom f (n + 1) xs

/-- JavaScript's `array.map((x, index) => ...)`. -/
def listMapIdx {α : Type} (f : Nat → α → α) (l : List α) : List α :=
  listMapIdxFrom f 0 l

theorem listMapIdxFrom_length {α : Type} (f : Nat → α → α) :
    ∀ (n : Nat) (l : List α), (listMapIdxFrom f n l).length = l.length
  | _, [] => rfl
  | n, _ :: xs => by simp [listMapIdxFrom, listMapIdxFrom_length f (n + 1) xs]

theorem listMapIdx_length {α : Type} (f : Nat → α → α) (l : List α) :
    (listMapIdx f l).length = l.length :=
  listMapIdxFrom_length f 0 l

theorem listMapIdxFrom_getElem? {α : Type} (f : Nat → α → α) :
    ∀ (n i : Nat) (l : List α),
      (listMapIdxFrom f n l)[i]? = (l[i]?).map (f (n + i))
  | _, _, [] => by simp [listMapIdxFrom]
  | n, 0, x :: xs => by simp [listMapIdxFrom]
  | n, i + 1, x :: xs => by
    simp only [listMapIdxFrom, List.getElem?_cons_succ]
    rw [listMapIdxFrom_getElem? f (n + 1) i xs,
      show n + (i + 1) = n + 1 + i from by omega]

theorem listMapIdx_getElem? {α : Type} (f : Nat → α → α) (i : Nat) (l : List α) :
    (listMapIdx f l)[i]? = (l[i]?).map (f i) := by
  simpa using listMapIdxFrom_getElem? f 0 i l

/-- Mapping `g` exactly at index `n + ms.length` over `ms ++ [m]`, starting
from index `n`, touches only the final element. -/
theorem listMapIdxFrom_tail {α : Type} (g : α → α) (k : Nat) :
    ∀ (n : Nat) (ms : List α) (m : α), k = n + ms.length →
      listMapIdxFrom (fun i y => if i = k then g y else y) n (ms ++ [m]) =
        ms ++ [g m]
  | n, [], m, hk => by
    have hnk : n = k := by simp at hk; omega
    simp [listMapIdxFrom, hnk]
  | n, x :: ms', m, hk => by
    have hk2 : k = n + ms'.length + 1 := by
      simp only [List.length_cons] at hk
      omega
    have hne : n ≠ k := by omega
    have hk' : k = (n + 1) + ms'.length := by omega
    have ih := listMapIdxFrom_tail g k (n + 1) ms' m hk'
    show (if n = k then g x else x) ::
        listMapIdxFrom (fun i y => if i = k then g y else y) (n + 1) (ms' ++ [m]) =
      x :: (ms' ++ [g m])
    rw [if_neg hne, ih]

/-- A map whose function fixes every member is the identity. -/
theorem listMapId_of_mem {α : Type} (f : α → α) :
    ∀ (l : List α), (∀ c ∈ l, f c = c) → l.map f = l
  | [], _ => rfl
  | x :: xs, h => by
    have hx := h x (by simp)
    have hxs := listMapId_of_mem f xs (fun c hc => h c (by simp [hc]))
    simp [hx, hxs]

/- ### Tail replacement (`App.tsx`, lines 85-113) -/

/-- `App.tsx` lines 85-89, `updateActiveChat`: apply `updater` to the chat
whose id matches the active id, leaving every other chat alone. -/
def updateActiveChat (chats : List Chat) (activeChatId : Option String)
    (updater : Chat → Chat) : List Chat :=
  chats.map (fun c => if some c.id = activeChatId then updater c else c)

/-- `App.tsx` lines 104-112: the per-chat updater of
`updateLastMessageInActiveChat` — identity on an empty log, otherwise the
update function is applied at index `length - 1` only. -/
def updateLastMessageChat (f : ChatMessage → ChatMessage) (chat : Chat) : Chat :=
  if chat.messages.isEmpty then chat
  else
    { chat with
      messages :=
        listMapIdx
          (fun i m => if i = chat.messages.length - 1 then f m else m)
          chat.messages }

/-- `App.tsx` lines 103-113, `updateLastMessageInActiveChat`. -/
def updateLastMessageInActiveChat (chats : List Chat) (activeChatId : Option String)
    (f : ChatMessage → ChatMessage) : List Chat :=
  updateActiveChat chats activeChatId (updateLastMessageChat f)

/-- C10: replace-tail is safe and targeted.  When every chat carrying the
active id has an empty message log, the whole chat list is returned
unchanged (and the operation never fails — it is a total function); and on a
non-empty log the update function is applied to the last element only. -/
theorem replaceTail_empty_noop_and_targets_last :
    (∀ (chats : List Chat) (aid : Option String) (f : ChatMessage → ChatMessage),
      (∀ c ∈ chats, some c.id = aid → c.messages = []) →
      updateLastMessageInActiveChat chats aid f = chats) ∧
    (∀ (f : ChatMessage → ChatMessage) (chat : Chat) (ms : List ChatMessage)
      (m : ChatMessage), chat.messages = ms ++ [m] →
      updateLastMessageChat f chat = { chat with messages := ms ++ [f m] }) := by
  constructor
  · intro chats aid f h
    unfold updateLastMessageInActiveChat updateActiveChat
    apply listMapId_of_mem
    intro c hc
    by_cases hid : some c.id = aid
    · simp [hid, updateLastMessageChat, h c hc hid]
    · simp [hid]
  · intro f chat ms m hmsg
    have hne : chat.messages.isEmpty = false := by simp [hmsg]
    unfold updateLastMessageChat
    rw [if_neg (by simp [hne])]
    congr 1
    rw [hmsg]
    exact listMapIdxFrom_tail f ((ms ++ [m]).length - 1) 0 ms m (by simp)

/-- Concrete instance of `replaceTail_empty_noop_and_targets_last`: an active
chat with an empty log is untouched, and a two-message log is updated at its
tail only. -/
theorem replaceTail_empty_noop_and_targets_last_witness :
    updateLastMessageInActiveChat
        [⟨"c1", "T", [], 0, [], ⟨true, false, false, false⟩⟩] (some "c1")
        (fun m => { m with content := "x" }) =
      [⟨"c1", "T", [], 0, [], ⟨true, false, false, false⟩⟩] ∧
    updateLastMessageChat (fun m => { m with content := "x" })
        ⟨"c2", "T", [{ role := .user, content := "q" },
                     { role := .model, content := "" }], 0, [],
         ⟨true, false, false, false⟩⟩ =
      ⟨"c2", "T", [{ role := .user, content := "q" },
                   { role := .model, content := "x" }], 0, [],
       ⟨true, false, false, false⟩⟩ := by
  constructor
  · exact replaceTail_empty_noop_and_targets_last.1
      [⟨"c1", "T", [], 0, [], ⟨true, false, false, false⟩⟩] (some "c1")
      (fun m => { m with content := "x" })
      (by intro c hc _; simp at hc; simp [hc])
  · exact replaceTail_empty_noop_and_targets_last.2
      (fun m => { m with content := "x" })
      ⟨"c2", "T", [{ role := .user, content := "q" },
                   { role := .model, content := "" }], 0, [],
       ⟨true, false, false, false⟩⟩
      [{ role := .user, content := "q" }] { role := .model, content := "" } rfl

/- ### Suggestion accept/reject (`App.tsx`, lines 1019-1088) -/

/-- The edited-file ledger: a JavaScript `Map` from `FileRef.id` to
`EditedFileRecord`, as an insertion-ordered association list. -/
abbrev EditedLedger := List (String × EditedFileRecord)

/-- `Map.prototype.get`. -/
def mapGet (m : EditedLedger) (k : String) : Option EditedFileRecord :=
  match m with
  | [] => none
  | (k', v) :: rest => if k' = k then some v else mapGet rest k

/-- `Map.prototype.set`: replace in place when the key exists, append
otherwise. -/
def mapSet (m : EditedLedger) (k : String) (v : EditedFileRecord) : EditedLedger :=
  match m with
  | [] => [(k, v)]
  | (k', v') :: rest =>
    if k' = k then (k, v) :: rest else (k', v') :: mapSet rest k v

theorem mapGet_mapSet_self (m : EditedLedger) (k : String) (v : EditedFileRecord) :
    mapGet (mapSet m k v) k = some v := by
  induction m with
  | nil => simp [mapSet, mapGet]
  | cons p rest ih =>
    by_cases hk : p.1 = k
    · simp [mapSet, mapGet, hk]
    · simp [mapSet, mapGet, hk, ih]

/-- `App.tsx` lines 1062-1066: the ledger write performed on acceptance.
`originalContent` is taken from a pre-existing entry for this id when one
exists — never overwritten after first capture — and `currentContent`
becomes the accepted suggestion's proposed content. -/
def recordEdit (ledger : EditedLedger) (file : Source)
    (originalContent currentContent : String) : EditedLedger :=
  mapSet ledger file.id
    { file := file
      originalContent :=
        ((mapGet ledger file.id).map EditedFileRecord.originalContent).getD
          originalContent
      currentContent := currentContent }

/-- The two user actions on a rendered suggestion. -/
inductive SuggAction where
  | accepted
  | rejected
deriving DecidableEq, Repr

/-- The status written by an action. -/
def SuggAction.toStatus : SuggAction → SuggestionStatus
  | .accepted => .accepted
  | .rejected => .rejected

/-- Append a message to a chat's log. -/
def appendMessage (c : Chat) (m : ChatMessage) : Chat :=
  { c with messages := c.messages ++ [m] }

/-- The state `handleSuggestionAction` operates on: the active chat and the
edited-file ledger. -/
structure SuggestionState where
  chat : Chat
  editedFiles : EditedLedger
deriving DecidableEq, Repr

/-- `App.tsx` lines 1019-1088, `handleSuggestionAction`: a no-op when the
indexed message does not exist or carries no suggestion; otherwise the
suggestion's status is set to the invoked action, and on acceptance the
local dataset is updated (`updateFileContent`), the ledger entry is written
(`recordEdit`) whenever the update succeeded — which it always does except
for a local file with an empty id — and a follow-up message is appended; on
rejection only the discard follow-up is appended. -/
def handleSuggestionAction (st : SuggestionState) (messageIndex : Nat)
    (action : SuggAction) : SuggestionState :=
  match st.chat.messages[messageIndex]? with
  | none => st
  | some msg =>
    match msg.suggestion with
    | none => st
    | some sugg =>
      let updatedSuggestion := { sugg with status := action.toStatus }
      let chat1 :=
        { st.chat with
          messages :=
            listMapIdx
              (fun i m =>
                if i = messageIndex then { m with suggestion := some updatedSuggestion }
                else m)
              st.chat.messages }
      match action with
      | .rejected =>
        ⟨appendMessage chat1
          { role := .model
            content := "Okay, discarded the suggested changes."
            responseType := some .info },
         st.editedFiles⟩
      | .accepted =>
        let file := sugg.file
        let isLocal := st.chat.dataset.any (fun d => d.source.id = file.id)
        let step : Bool × Chat :=
          if isLocal then
            let r := updateFileContent file sugg.suggestedContent st.chat.dataset
            if r.success then (true, { chat1 with dataset := r.newDataset })
            else (false, chat1)
          else (true, chat1)
        if step.1 then
          ⟨appendMessage step.2
            { role := .model
              content := "Applied changes to `file:" ++ file.fileName ++ "`."
              editedFile := some file
              responseType := some .codeApplied },
           recordEdit st.editedFiles file sugg.originalContent sugg.suggestedContent⟩
        else
          ⟨appendMessage step.2
            { role := .model
              content := "Failed to apply changes to `file:" ++ file.fileName ++ "`."
              responseType := some .error },
           st.editedFiles⟩

/-- Accepting a suggestion on a file with a non-empty id always writes the
ledger through `recordEdit` (local-dataset update success is exactly the
local-membership test when the id is non-empty). -/
theorem handleSuggestionAction_accepted_editedFiles (st : SuggestionState)
    (i : Nat) (m : ChatMessage) (s : CodeSuggestion)
    (hm : st.chat.messages[i]? = some m) (hs : m.suggestion = some s)
    (hid : s.file.id ≠ "") :
    (handleSuggestionAction st i .accepted).editedFiles =
      recordEdit st.editedFiles s.file s.originalContent s.suggestedContent := by
  unfold handleSuggestionAction
  rw [hm]
  simp only [hs]
  by_cases hl : st.chat.dataset.any (fun d => d.source.id = s.file.id)
  · simp [hl, updateFileContent, hid]
  · simp [hl]

theorem mapGet_recordEdit_self (L : EditedLedger) (f : Source) (o c : String) :
    mapGet (recordEdit L f o c) f.id =
      some
        { file := f
          originalContent :=
            ((mapGet L f.id).map EditedFileRecord.originalContent).getD o
          currentContent := c } :=
  mapGet_mapSet_self L f.id _

/-- Writing a ledger entry over an existing one preserves that entry's
`originalContent` and overwrites `currentContent`. -/
theorem mapGet_recordEdit_prev (L : EditedLedger) (f : Source) (o c : String)
    (r : EditedFileRecord) (h : mapGet L f.id = some r) :
    mapGet (recordEdit L f o c) f.id = some ⟨f, r.originalContent, c⟩ := by
  rw [mapGet_recordEdit_self, h]
  rfl

/-- C3: after two acceptances targeting the same (non-empty) file id, the
ledger entry's `originalContent` equals the one captured by the first
acceptance — never overwritten — while `currentContent` equals the second
acceptance's proposed content. -/
theorem repeated_accept_preserves_original (st : SuggestionState) (i1 i2 : Nat)
    (m1 m2 : ChatMessage) (s1 s2 : CodeSuggestion)
    (h1 : st.chat.messages[i1]? = some m1) (h2 : m1.suggestion = some s1)
    (h3 : (handleSuggestionAction st i1 .accepted).chat.messages[i2]? = some m2)
    (h4 : m2.suggestion = some s2)
    (h5 : s2.file.id = s1.file.id) (h6 : s1.file.id ≠ "") :
    ∃ r1 r2,
      mapGet (handleSuggestionAction st i1 .accepted).editedFiles s1.file.id =
        some r1 ∧
      mapGet (handleSuggestionAction (handleSuggestionAction st i1 .accepted) i2
          .accepted).editedFiles s1.file.id = some r2 ∧
      r2.originalContent = r1.originalContent ∧
      r2.currentContent = s2.suggestedContent := by
  have h6' : s2.file.id ≠ "" := by rw [h5]; exact h6
  have e1 := handleSuggestionAction_accepted_editedFiles st i1 m1 s1 h1 h2 h6
  have e2 := handleSuggestionAction_accepted_editedFiles
    (handleSuggestionAction st i1 .accepted) i2 m2 s2 h3 h4 h6'
  obtain ⟨r1, g1⟩ :
      ∃ r1, mapGet (handleSuggestionAction st i1 .accepted).editedFiles
        s1.file.id = some r1 :=
    ⟨_, by
      rw [e1]
      exact mapGet_recordEdit_self st.editedFiles s1.file s1.originalContent
        s1.suggestedContent⟩
  have g1' :
      mapGet (handleSuggestionAction st i1 .accepted).editedFiles s2.file.id =
        some r1 := by
    rw [h5]
    exact g1
  have g2' :
      mapGet (handleSuggestionAction (handleSuggestionAction st i1 .accepted) i2
          .accepted).editedFiles s2.file.id =
        some ⟨s2.file, r1.originalContent, s2.suggestedContent⟩ := by
    rw [e2]
    exact mapGet_recordEdit_prev
      (handleSuggestionAction st i1 .accepted).editedFiles s2.file
      s2.originalContent s2.suggestedContent r1 g1'
  have g2 :
      mapGet (handleSuggestionAction (handleSuggestionAction st i1 .accepted) i2
          .accepted).editedFiles s1.file.id =
        some ⟨s2.file, r1.originalContent, s2.suggestedContent⟩ := by
    rw [← h5]
    exact g2'
  exact ⟨r1, _, g1, g2, rfl, rfl⟩

/-- Concrete instance of `repeated_accept_preserves_original`: two pending
suggestions on the same non-local file, accepted one after the other; the
ledger keeps the first `originalContent` and the second proposed content. -/
theorem repeated_accept_preserves_original_witness :
    ∃ r1 r2,
      mapGet
        (handleSuggestionAction
          ⟨⟨"c", "T",
            [{ role := .model, content := "a",
               suggestion := some ⟨⟨"f1", "a.ts", "src"⟩, "t1", "orig", "v1", .pending⟩ },
             { role := .model, content := "b",
               suggestion := some ⟨⟨"f1", "a.ts", "src"⟩, "t2", "origB", "v2", .pending⟩ }],
            0, [], ⟨false, true, false, false⟩⟩, []⟩
          0 .accepted).editedFiles "f1" = some r1 ∧
      mapGet
        (handleSuggestionAction
          (handleSuggestionAction
            ⟨⟨"c", "T",
              [{ role := .model, content := "a",
                 suggestion := some ⟨⟨"f1", "a.ts", "src"⟩, "t1", "orig", "v1", .pending⟩ },
               { role := .model, content := "b",
                 suggestion := some ⟨⟨"f1", "a.ts", "src"⟩, "t2", "origB", "v2", .pending⟩ }],
              0, [], ⟨false, true, false, false⟩⟩, []⟩
            0 .accepted)
          1 .accepted).editedFiles "f1" = some r2 ∧
      r2.originalContent = r1.originalContent ∧
      r2.currentContent = "v2" :=
  repeated_accept_preserves_original
    ⟨⟨"c", "T",
      [{ role := .model, content := "a",
         suggestion := some ⟨⟨"f1", "a.ts", "src"⟩, "t1", "orig", "v1", .pending⟩ },
       { role := .model, content := "b",
         suggestion := some ⟨⟨"f1", "a.ts", "src"⟩, "t2", "origB", "v2", .pending⟩ }],
      0, [], ⟨false, true, false, false⟩⟩, []⟩
    0 1
    { role := .model, content := "a",
      suggestion := some ⟨⟨"f1", "a.ts", "src"⟩, "t1", "orig", "v1", .pending⟩ }
    { role := .model, content := "b",
      suggestion := some ⟨⟨"f1", "a.ts", "src"⟩, "t2", "origB", "v2", .pending⟩ }
    ⟨⟨"f1", "a.ts", "src"⟩, "t1", "orig", "v1", .pending⟩
    ⟨⟨"f1", "a.ts", "src"⟩, "t2", "origB", "v2", .pending⟩
    rfl rfl (by decide) rfl rfl (by decide)

/-- C4 counterexample: `handleSuggestionAction` does not check that the
suggestion is still `pending`.  Invoked on a message whose suggestion is
already `accepted`, it is not a no-op: the status is overwritten (here to
`rejected`) and another follow-up message is appended. -/
theorem suggestion_action_unguarded_counterexample :
    handleSuggestionAction
        ⟨⟨"c", "T",
          [{ role := .model, content := "x",
             suggestion :=
               some ⟨⟨"f1", "a.ts", "src"⟩, "t", "old", "new", .accepted⟩ }],
          0, [], ⟨false, false, false, false⟩⟩, []⟩
        0 .rejected ≠
      ⟨⟨"c", "T",
        [{ role := .model, content := "x",
           suggestion :=
             some ⟨⟨"f1", "a.ts", "src"⟩, "t", "old", "new", .accepted⟩ }],
        0, [], ⟨false, false, false, false⟩⟩, []⟩ ∧
    ((handleSuggestionAction
        ⟨⟨"c", "T",
          [{ role := .model, content := "x",
             suggestion :=
               some ⟨⟨"f1", "a.ts", "src"⟩, "t", "old", "new", .accepted⟩ }],
          0, [], ⟨false, false, false, false⟩⟩, []⟩
        0 .rejected).chat.messages[0]?).map ChatMessage.suggestion =
      some (some ⟨⟨"f1", "a.ts", "src"⟩, "t", "old", "new", .rejected⟩) := by
  constructor
  · decide
  · decide

/-- Whatever branch the acceptance bookkeeping takes, the message log after
`handleSuggestionAction` is the original log with the suggestion's status
overwritten at the target index, plus one appended follow-up message. -/
theorem handleSuggestionAction_messages (st : SuggestionState) (i : Nat)
    (m : ChatMessage) (s : CodeSuggestion) (a : SuggAction)
    (hm : st.chat.messages[i]? = some m) (hs : m.suggestion = some s) :
    ∃ fu : ChatMessage,
      (handleSuggestionAction st i a).chat.messages =
        listMapIdx
          (fun j x =>
            if j = i then { x with suggestion := some { s with status := a.toStatus } }
            else x)
          st.chat.messages ++ [fu] := by
  cases a with
  | rejected =>
    unfold handleSuggestionAction
    rw [hm]
    simp only [hs]
    exact ⟨_, rfl⟩
  | accepted =>
    unfold handleSuggestionAction
    rw [hm]
    simp only [hs]
    repeat' split
    all_goals exact ⟨_, rfl⟩

/-- C4 as amended: the operation sets the suggestion's status to the invoked
action unconditionally — whatever the current status — and appends exactly
one follow-up message; it is a no-op only when the indexed message does not
exist or carries no suggestion.  (So "exactly one transition out of
`pending`" holds only insofar as the rendering layer stops offering the
accept/reject actions once the status has left `pending`; the operation
itself permits further overwrites.) -/
theorem suggestion_action_sets_status_unconditionally (st : SuggestionState)
    (i : Nat) (m : ChatMessage) (s : CodeSuggestion) (a : SuggAction)
    (hm : st.chat.messages[i]? = some m) (hs : m.suggestion = some s) :
    ((handleSuggestionAction st i a).chat.messages[i]?).map
        ChatMessage.suggestion = some (some { s with status := a.toStatus }) ∧
    (handleSuggestionAction st i a).chat.messages.length =
      st.chat.messages.length + 1 ∧
    (∀ (st' : SuggestionState) (j : Nat), st'.chat.messages[j]? = none →
      handleSuggestionAction st' j a = st') ∧
    (∀ (st' : SuggestionState) (j : Nat) (m' : ChatMessage),
      st'.chat.messages[j]? = some m' → m'.suggestion = none →
      handleSuggestionAction st' j a = st') := by
  have hi : i < st.chat.messages.length := by
    by_contra hlt
    rw [List.getElem?_eq_none (Nat.le_of_not_lt hlt)] at hm
    exact Option.noConfusion hm
  obtain ⟨fu, hmsgs⟩ := handleSuggestionAction_messages st i m s a hm hs
  refine ⟨?_, ?_, ?_, ?_⟩
  · rw [hmsgs,
      List.getElem?_append_left (by rw [listMapIdx_length]; exact hi),
      listMapIdx_getElem?, hm]
    simp
  · rw [hmsgs]
    simp [listMapIdx_length]
  · intro st' j hj
    unfold handleSuggestionAction
    rw [hj]
  · intro st' j m' hj hsugg
    unfold handleSuggestionAction
    rw [hj]
    simp only [hsugg]

/-- Concrete instance of `suggestion_action_sets_status_unconditionally`:
accepting a pending suggestion marks it accepted and appends the follow-up. -/
theorem suggestion_action_sets_status_unconditionally_witness :
    ((handleSuggestionAction
        ⟨⟨"c", "T",
          [{ role := .model, content := "x",
             suggestion :=
               some ⟨⟨"f1", "a.ts", "src"⟩, "t", "old", "new", .pending⟩ }],
          0, [], ⟨false, false, false, false⟩⟩, []⟩
        0 .accepted).chat.messages[0]?).map ChatMessage.suggestion =
      some (some ⟨⟨"f1", "a.ts", "src"⟩, "t", "old", "new", .accepted⟩) ∧
    (handleSuggestionAction
        ⟨⟨"c", "T",
          [{ role := .model, content := "x",
             suggestion :=
               some ⟨⟨"f1", "a.ts", "src"⟩, "t", "old", "new", .pending⟩ }],
          0, [], ⟨false, false, false, false⟩⟩, []⟩
        0 .accepted).chat.messages.length = 2 :=
  have h := suggestion_action_sets_status_unconditionally
    ⟨⟨"c", "T",
      [{ role := .model, content := "x",
         suggestion :=
           some ⟨⟨"f1", "a.ts", "src"⟩, "t", "old", "new", .pending⟩ }],
      0, [], ⟨false, false, false, false⟩⟩, []⟩
    0
    { role := .model, content := "x",
      suggestion := some ⟨⟨"f1", "a.ts", "src"⟩, "t", "old", "new", .pending⟩ }
    ⟨⟨"f1", "a.ts", "src"⟩, "t", "old", "new", .pending⟩
    .accepted rfl rfl
  ⟨h.1, h.2.1⟩

end Mnemo
